import Mathlib

/-!
# Verification of the qq-chat-exporter core (qq.py, fuck_down_test.py)

A shallow embedding of the pixel-scanning chat exporter. The embedding
follows the Python source line by line:

* `find_message_areas` — the raster scan of `qq.py` lines 52-76 that groups
  rows whose leftmost pixel matches a reference message color into areas.
* `copy_message` — `qq.py` lines 79-114. The real function clicks, sends
  key chords and reads the clipboard; those interactions are modelled by an
  explicit `ClipboardOutcome` oracle, while the control flow (safety gate,
  exception handling, role tagging) is translated faithfully.
* `is_click_safe` (`qq.py` lines 169-176) and `fd_is_click_safe`
  (`fuck_down_test.py` lines 49-56) — the two safety checks.
* `save_to_json` — `qq.py` lines 136-149, with the store file modelled as
  parsed JSON state (`FileState`).
* `process_visible_messages` — `qq.py` lines 117-134, one scan pass.
* `scrollLoop` — the `while no_new_message_count < 10` loop of
  `scroll_chat_window` (`qq.py` lines 178-209), with the per-pass persisted
  counts supplied as a stub list.

Screen coordinates and pixel indices are natural numbers; a pixel is an RGB
triple of naturals. Out-of-range pixel reads default to `(0, 0, 0)`, which
matches neither reference color; all concrete inputs used below stay in
range, so the default never influences a verdict.
-/

/-- An RGB triple. The Python code compares `pixels[x, y][:3]` against the
two reference triples, so the alpha channel never participates. -/
abbrev Color := Nat × Nat × Nat

/-- `my_message_color = (0, 153, 255)` — qq.py line 23. -/
def my_message_color : Color := (0, 153, 255)

/-- `other_message_color = (241, 252, 247)` — qq.py line 24. -/
def other_message_color : Color := (241, 252, 247)

/-- `pixels[x, y][:3] in (my_message_color, other_message_color)` —
qq.py line 60. -/
def isMessageColor (c : Color) : Bool :=
  c = my_message_color || c = other_message_color

/-- A frame is a list of rows, top to bottom; each row is its pixels left
to right (`ScreenFrame` of the data model). -/
abbrev Frame := List (List Color)

/-- Row `y` of a frame; rows outside the frame read as empty. -/
def rowAt (frame : Frame) (y : Nat) : List Color :=
  (frame.get? y).getD []

/-- `screenshot.getpixel((x, y))` / `pixels[x, y]` — pixel at column `x` of
row `y`, defaulting to black outside the frame. -/
def getpixel (frame : Frame) (x y : Nat) : Color :=
  ((rowAt frame y).get? x).getD (0, 0, 0)

/-- The inner `for x in range(screenshot.width)` loop of
`find_message_areas` (qq.py lines 59-69): the column of the first pixel in
the row matching a reference color, if any; the loop `break`s at the first
match. -/
def firstMatch : List Color → Option Nat
  | [] => none
  | c :: rest => if isMessageColor c then some 0 else (firstMatch rest).map (· + 1)

/-- The mutable list `current_area = [x, y, x, y]` of `find_message_areas`:
index 0 is the left column of the first active row, index 1 the first
active row, index 2 the running maximum of leftmost-match columns, index 3
the last active row. -/
structure Area where
  min_x : Nat
  min_y : Nat
  max_x : Nat
  max_y : Nat
deriving DecidableEq, Repr

/-- The outer `for y in range(screenshot.height)` loop of
`find_message_areas` (qq.py lines 57-72), as structural recursion over the
remaining rows. `y` is the index of the first remaining row, `curr` the
open `current_area`, `acc` the emitted `message_areas`. In every reachable
state `curr = some a` implies `a.max_y < y`, so the truncated natural
subtraction in the gap test agrees with Python's integer subtraction. -/
def scanRows : List (List Color) → Nat → Option Area → List Area → List Area
  | [], _, none, acc => acc
  | [], _, some a, acc => acc ++ [a]
  | row :: rest, y, curr, acc =>
    match firstMatch row with
    | some x =>
      match curr with
      | none => scanRows rest (y + 1) (some ⟨x, y, x, y⟩) acc
      | some a =>
        if y - a.max_y > 5 then
          scanRows rest (y + 1) (some ⟨x, y, x, y⟩) (acc ++ [a])
        else
          scanRows rest (y + 1) (some ⟨a.min_x, a.min_y, max a.max_x x, y⟩) acc
    | none =>
      match curr with
      | some a => scanRows rest (y + 1) none (acc ++ [a])
      | none => scanRows rest (y + 1) none acc

/-- `find_message_areas(screenshot)` — qq.py lines 52-76. -/
def find_message_areas (frame : Frame) : List Area :=
  scanRows frame 0 none []

/-- A record `{"text": ..., "type": ...}` as built by `copy_message` and
persisted by `save_to_json` (`ExtractedMessage` of the data model). -/
structure Record where
  text : String
  type : String
deriving DecidableEq, Repr

/-- `"my_message" if message_color == my_message_color else
"other_message"` — qq.py line 107. -/
def message_type_of (c : Color) : String :=
  if c = my_message_color then "my_message" else "other_message"

/-- What the click/select-all/copy/clipboard-read interaction of
`copy_message` (qq.py lines 90-104) produced, abstracted as an oracle:
the clipboard held text `s`, the clipboard held no text (the `TypeError`
branch, line 100), or some step raised (the `except Exception` branch,
line 109). -/
inductive ClipboardOutcome
  | text (s : String)
  | noText
  | failure
deriving DecidableEq, Repr

/-- A screen point. -/
abbrev Point := Nat × Nat

/-- The four calibrated corners, ordered top-left, top-right, bottom-left,
bottom-right (the `avoid_area` list; `ExclusionZone` of the data model). -/
structure AvoidArea where
  p0 : Point
  p1 : Point
  p2 : Point
  p3 : Point
deriving DecidableEq, Repr

/-- The hard-coded `avoid_area` constant of qq.py line 20. -/
def qq_avoid_area : AvoidArea :=
  ⟨(1248, 589), (1299, 589), (1249, 611), (1299, 613)⟩

/-- `is_click_safe(click_position)` — qq.py lines 169-176, parametrised by
the `avoid_area` global it reads: `ax1, ay1 = avoid_area[0]`,
`ax2, ay2 = avoid_area[3]`, unsafe iff `ax1 <= px <= ax2 and
ay1 <= py <= ay2`. -/
def is_click_safe (avoid : AvoidArea) (pos : Point) : Bool :=
  if avoid.p0.1 ≤ pos.1 ∧ pos.1 ≤ avoid.p3.1 ∧ avoid.p0.2 ≤ pos.2 ∧ pos.2 ≤ avoid.p3.2
  then false else true

/-- `is_click_safe(click_position, avoid_area)` — fuck_down_test.py lines
49-56. `None` models a missing/falsy `avoid_area` (the function then
returns `True`). The destructuring `(ax1, ay1), (_, ay2), (ax3, _), (_, _)
= avoid_area` takes `ay2` from the top-RIGHT corner and `ax3` from the
bottom-LEFT corner, exactly as the source does. -/
def fd_is_click_safe (avoid : Option AvoidArea) (pos : Point) : Bool :=
  match avoid with
  | none => true
  | some a =>
    if a.p0.1 ≤ pos.1 ∧ pos.1 ≤ a.p2.1 ∧ a.p0.2 ≤ pos.2 ∧ pos.2 ≤ a.p1.2
    then false else true

/-- `copy_message(area, message_color)` — qq.py lines 79-114. The safety
gate tests the click point `(x + 5, y + 5)`; an unsafe point short-circuits
to `{"text": "", "type": ""}` (line 114), an interaction failure is caught
and yields `{"text": "", "type": ""}` (line 111), a clipboard without text
yields `message = ""` but still tags the role (lines 100-108), and a
successful read returns the clipboard text tagged by color (line 108). -/
def copy_message (area : Area) (message_color : Color) (safe : Point → Bool)
    (outcome : ClipboardOutcome) : Record :=
  if safe (area.min_x + 5, area.min_y + 5) then
    match outcome with
    | .failure => ⟨"", ""⟩
    | .noText => ⟨"", message_type_of message_color⟩
    | .text s => ⟨s, message_type_of message_color⟩
  else
    ⟨"", ""⟩

/-- The store file's state as seen by `save_to_json`: absent, present but
undecodable (`json.JSONDecodeError`), or a decodable JSON array of
records. -/
inductive FileState
  | missing
  | corrupt
  | content (records : List Record)
deriving DecidableEq, Repr

/-- `save_to_json(message_data)` — qq.py lines 136-149: load the existing
array (an absent or undecodable file starts a fresh `data = []`), append
the record, rewrite the whole file. -/
def save_to_json (fs : FileState) (m : Record) : FileState :=
  match fs with
  | .content l => .content (l ++ [m])
  | _ => .content [m]

/-- The `for area in message_areas` loop of `process_visible_messages`
(qq.py lines 123-132): for each area read the pixel at its top-left corner
`(x, y)`, extract via `copy_message` (interaction outcomes supplied per
area index by the oracle), and persist iff the text is non-empty and the
record is not already in this pass's `processed_messages`. Returns the
final `processed_messages` and the store state. -/
def processAreas (safe : Point → Bool) (frame : Frame)
    (outcome : Nat → ClipboardOutcome) :
    List Area → Nat → List Record → FileState → List Record × FileState
  | [], _, processed, fs => (processed, fs)
  | a :: rest, i, processed, fs =>
    let color := getpixel frame a.min_x a.min_y
    let m := copy_message a color safe (outcome i)
    if m.text ≠ "" ∧ m ∉ processed then
      processAreas safe frame outcome rest (i + 1) (processed ++ [m]) (save_to_json fs m)
    else
      processAreas safe frame outcome rest (i + 1) processed fs

/-- `process_visible_messages()` — qq.py lines 117-134, with the captured
frame, the safety check and the interaction oracle passed explicitly, and
the store threaded through. Returns `(len(processed_messages),
message_areas[-1] if message_areas else None, store)`. -/
def process_visible_messages (safe : Point → Bool) (frame : Frame)
    (outcome : Nat → ClipboardOutcome) (fs : FileState) :
    Nat × Option Area × FileState :=
  let areas := find_message_areas frame
  let (processed, fs') := processAreas safe frame outcome areas 0 [] fs
  (processed.length, areas.getLast?, fs')

/-- The `while no_new_message_count < 10` loop of `scroll_chat_window`
(qq.py lines 184-207), with each pass's `processed_count` supplied by a
stub list. A pass with count 0 increments `no_new_message_count`, any
other count resets it to 0 (lines 188-193); `total_processed` accumulates
the counts (line 186). Returns the number of passes executed and the final
`total_processed`; an exhausted stub ends the run (the real loop would
keep scrolling, which no claim exercises). -/
def scrollLoop : List Nat → Nat → Nat → Nat × Nat
  | [], _, total => (0, total)
  | c :: rest, idle, total =>
    if idle < 10 then
      let next := scrollLoop rest (if c = 0 then idle + 1 else 0) (total + c)
      (next.1 + 1, next.2)
    else
      (0, total)

/-- The idle-counter fold: the value of `no_new_message_count` after
consuming the given pass counts, starting from `idle`. -/
def idleFold (idle : Nat) (counts : List Nat) : Nat :=
  counts.foldl (fun i c => if c = 0 then i + 1 else 0) idle

/-- The records held by the store file; an absent or undecodable file holds
none (what `save_to_json`'s loader recovers from it). -/
def storeRecords : FileState → List Record
  | .content l => l
  | _ => []

/-- A frame row with no pixel of either reference color. -/
def blankRow (w : Nat) : List Color := List.replicate w (0, 0, 0)

/-- A frame row of a color band: `x0` background pixels, then `w` pixels of
color `c`. Its leftmost match is column `x0` whenever `c` is a reference
color and `w ≥ 1`. -/
def bandRow (x0 w : Nat) (c : Color) : List Color :=
  List.replicate x0 (0, 0, 0) ++ List.replicate w c

/-- A frame holding exactly one contiguous band of color `c`: `g1` blank
rows, then `h` band rows spanning columns `x0 .. x0 + w - 1`, then `g2`
blank rows. -/
def oneBandFrame (g1 h g2 x0 w : Nat) (c : Color) : Frame :=
  List.replicate g1 (blankRow (x0 + w)) ++ List.replicate h (bandRow x0 w c)
    ++ List.replicate g2 (blankRow (x0 + w))

/-- A frame holding two contiguous bands of the same color `c`, vertically
separated by `g` blank rows: `h1` band rows, `g` blank rows, `h2` band
rows. -/
def twoBandFrame (h1 g h2 x0 w : Nat) (c : Color) : Frame :=
  List.replicate h1 (bandRow x0 w c) ++ List.replicate g (blankRow (x0 + w))
    ++ List.replicate h2 (bandRow x0 w c)

/-- A 6×6 frame whose pixel (0,0) carries the Self color and whose pixel
(5,5) carries the Other color, with everything else background. The first
detected region's top-left corner is (0,0), and the point offset by the
click margin (+5,+5) from it lands on the Other-colored pixel, so the two
candidate role-sampling points disagree. -/
def offsetDemoFrame : Frame :=
  [my_message_color :: blankRow 5,
   blankRow 6, blankRow 6, blankRow 6, blankRow 6,
   blankRow 5 ++ [other_message_color]]

/-- Well-formedness of a detected area with respect to its frame: ordered
bounds and a reference-colored pixel at the top-left corner. -/
abbrev wfArea (frame : Frame) (a : Area) : Prop :=
  a.min_x ≤ a.max_x ∧ a.min_y ≤ a.max_y ∧
    isMessageColor (getpixel frame a.min_x a.min_y) = true

/-! ## Row-scan lemmas -/

lemma isMessageColor_bg : isMessageColor (0, 0, 0) = false := by decide

lemma firstMatch_cons_neg {c : Color} (hc : isMessageColor c = false) (l : List Color) :
    firstMatch (c :: l) = (firstMatch l).map (· + 1) := by
  simp [firstMatch, hc]

lemma firstMatch_cons_pos {c : Color} (hc : isMessageColor c = true) (l : List Color) :
    firstMatch (c :: l) = some 0 := by
  simp [firstMatch, hc]

lemma scanRows_skip_step (r : List Color) (hr : firstMatch r = none)
    (rest : List (List Color)) (y : Nat) (acc : List Area) :
    scanRows (r :: rest) y none acc = scanRows rest (y + 1) none acc := by
  simp [scanRows, hr]

lemma scanRows_close_step (r : List Color) (hr : firstMatch r = none)
    (rest : List (List Color)) (y : Nat) (a : Area) (acc : List Area) :
    scanRows (r :: rest) y (some a) acc = scanRows rest (y + 1) none (acc ++ [a]) := by
  simp [scanRows, hr]

lemma scanRows_open_step (r : List Color) (x : Nat) (hr : firstMatch r = some x)
    (rest : List (List Color)) (y : Nat) (acc : List Area) :
    scanRows (r :: rest) y none acc = scanRows rest (y + 1) (some ⟨x, y, x, y⟩) acc := by
  simp [scanRows, hr]

lemma scanRows_merge_step (r : List Color) (x : Nat) (hr : firstMatch r = some x)
    (rest : List (List Color)) (y : Nat) (a : Area) (acc : List Area)
    (hgap : y - a.max_y ≤ 5) :
    scanRows (r :: rest) y (some a) acc
      = scanRows rest (y + 1) (some ⟨a.min_x, a.min_y, max a.max_x x, y⟩) acc := by
  simp only [scanRows, hr]
  rw [if_neg (by omega)]

lemma scanRows_split_step (r : List Color) (x : Nat) (hr : firstMatch r = some x)
    (rest : List (List Color)) (y : Nat) (a : Area) (acc : List Area)
    (hgap : 5 < y - a.max_y) :
    scanRows (r :: rest) y (some a) acc
      = scanRows rest (y + 1) (some ⟨x, y, x, y⟩) (acc ++ [a]) := by
  simp only [scanRows, hr]
  rw [if_pos (by omega)]

lemma firstMatch_replicate_append (k : Nat) (l : List Color) :
    firstMatch (List.replicate k (0, 0, 0) ++ l) = (firstMatch l).map (· + k) := by
  induction k with
  | zero => cases h : firstMatch l <;> simp [h]
  | succ k ih =>
    rw [List.replicate_succ, List.cons_append, firstMatch_cons_neg isMessageColor_bg, ih]
    cases h : firstMatch l
    · simp
    · simp only [Option.map_some']
      rfl

lemma firstMatch_blankRow (w : Nat) : firstMatch (blankRow w) = none := by
  have h := firstMatch_replicate_append w ([] : List Color)
  simpa [blankRow, firstMatch] using h

lemma firstMatch_bandRow (x0 w : Nat) (c : Color) (hc : isMessageColor c = true)
    (hw : 1 ≤ w) : firstMatch (bandRow x0 w c) = some x0 := by
  obtain ⟨w', rfl⟩ : ∃ w', w = w' + 1 := ⟨w - 1, by omega⟩
  rw [bandRow, List.replicate_succ, firstMatch_replicate_append,
    firstMatch_cons_pos hc]
  simp

lemma firstMatch_sound :
    ∀ (row : List Color) (x : Nat), firstMatch row = some x →
      isMessageColor ((row.get? x).getD (0, 0, 0)) = true := by
  intro row
  induction row with
  | nil => intro x h; simp [firstMatch] at h
  | cons c rest ih =>
    intro x h
    by_cases hc : isMessageColor c
    · rw [firstMatch_cons_pos hc] at h
      cases h
      simpa using hc
    · rw [firstMatch_cons_neg (by simpa using hc)] at h
      rw [Option.map_eq_some'] at h
      obtain ⟨x', hx', rfl⟩ := h
      simpa using ih x' hx'

lemma scanRows_blank_skip :
    ∀ (rs : List (List Color)), (∀ r ∈ rs, firstMatch r = none) →
      ∀ (rest : List (List Color)) (y : Nat) (acc : List Area),
        scanRows (rs ++ rest) y none acc = scanRows rest (y + rs.length) none acc := by
  intro rs
  induction rs with
  | nil => intro _ rest y acc; simp
  | cons r rs ih =>
    intro hall rest y acc
    rw [List.cons_append, scanRows_skip_step r (hall r (by simp)),
      ih (fun r' h => hall r' (by simp [h])) rest (y + 1) acc]
    congr 1
    simp
    omega

lemma scanRows_band_merge :
    ∀ (rs : List (List Color)) (x0 : Nat), (∀ r ∈ rs, firstMatch r = some x0) →
      ∀ (rest : List (List Color)) (y y0 : Nat) (acc : List Area),
        scanRows (rs ++ rest) (y + 1) (some ⟨x0, y0, x0, y⟩) acc
          = scanRows rest (y + 1 + rs.length) (some ⟨x0, y0, x0, y + rs.length⟩) acc := by
  intro rs
  induction rs with
  | nil => intro x0 _ rest y y0 acc; simp
  | cons r rs ih =>
    intro x0 hall rest y y0 acc
    rw [List.cons_append,
      scanRows_merge_step r x0 (hall r (by simp)) (rs ++ rest) (y + 1)
        ⟨x0, y0, x0, y⟩ acc (by simp)]
    have hmax : (max x0 x0) = x0 := by omega
    simp only [hmax]
    rw [show y + 1 + 1 = (y + 1) + 1 by rfl,
      ih x0 (fun r' h => hall r' (by simp [h])) rest (y + 1) y0 acc]
    have h1 : y + 1 + 1 + rs.length = y + 1 + (r :: rs).length := by simp; omega
    have h2 : y + 1 + rs.length = y + (r :: rs).length := by simp; omega
    rw [h1, h2]

lemma blank_rows_all (g w : Nat) :
    ∀ r ∈ List.replicate g (blankRow w), firstMatch r = none := by
  intro r hr
  rw [List.mem_replicate] at hr
  rw [hr.2, firstMatch_blankRow]

lemma band_rows_all (g x0 w : Nat) (c : Color) (hc : isMessageColor c = true)
    (hw : 1 ≤ w) :
    ∀ r ∈ List.replicate g (bandRow x0 w c), firstMatch r = some x0 := by
  intro r hr
  rw [List.mem_replicate] at hr
  rw [hr.2, firstMatch_bandRow x0 w c hc hw]

lemma scanRows_band_then (x0 w h : Nat) (c : Color) (hc : isMessageColor c = true)
    (hh : 1 ≤ h) (hw : 1 ≤ w) (rest : List (List Color)) (y : Nat) (acc : List Area) :
    scanRows (List.replicate h (bandRow x0 w c) ++ rest) y none acc
      = scanRows rest (y + h) (some ⟨x0, y, x0, y + h - 1⟩) acc := by
  obtain ⟨h', rfl⟩ : ∃ h', h = h' + 1 := ⟨h - 1, by omega⟩
  rw [List.replicate_succ, List.cons_append,
    scanRows_open_step (bandRow x0 w c) x0 (firstMatch_bandRow x0 w c hc hw),
    scanRows_band_merge (List.replicate h' (bandRow x0 w c)) x0
      (band_rows_all h' x0 w c hc hw) rest y y acc]
  have h1 : y + 1 + (List.replicate h' (bandRow x0 w c)).length = y + (h' + 1) := by
    simp; omega
  have h2 : y + (List.replicate h' (bandRow x0 w c)).length = y + (h' + 1) - 1 := by
    simp
  rw [h1, h2]

theorem oneBand_detect (g1 h g2 x0 w : Nat) (c : Color)
    (hc : isMessageColor c = true) (hh : 1 ≤ h) (hw : 1 ≤ w) :
    find_message_areas (oneBandFrame g1 h g2 x0 w c) = [⟨x0, g1, x0, g1 + h - 1⟩] := by
  rw [find_message_areas, oneBandFrame, List.append_assoc,
    scanRows_blank_skip (List.replicate g1 (blankRow (x0 + w)))
      (blank_rows_all g1 (x0 + w)),
    show (0 : Nat) + (List.replicate g1 (blankRow (x0 + w))).length = g1 by simp,
    scanRows_band_then x0 w h c hc hh hw]
  cases g2 with
  | zero => simp [scanRows]
  | succ g2' =>
    rw [List.replicate_succ,
      scanRows_close_step (blankRow (x0 + w)) (firstMatch_blankRow (x0 + w)),
      show List.replicate g2' (blankRow (x0 + w))
          = List.replicate g2' (blankRow (x0 + w)) ++ ([] : List (List Color)) from
        (List.append_nil _).symm,
      scanRows_blank_skip (List.replicate g2' (blankRow (x0 + w)))
        (blank_rows_all g2' (x0 + w)) [] _ _]
    simp [scanRows]

theorem twoBand_detect (h1 g h2 x0 w : Nat) (c : Color)
    (hc : isMessageColor c = true) (hh1 : 1 ≤ h1) (hg : 1 ≤ g) (hh2 : 1 ≤ h2)
    (hw : 1 ≤ w) :
    find_message_areas (twoBandFrame h1 g h2 x0 w c)
      = [⟨x0, 0, x0, h1 - 1⟩, ⟨x0, h1 + g, x0, h1 + g + h2 - 1⟩] := by
  obtain ⟨g', rfl⟩ : ∃ g', g = g' + 1 := ⟨g - 1, by omega⟩
  rw [find_message_areas, twoBandFrame, List.append_assoc,
    scanRows_band_then x0 w h1 c hc hh1 hw]
  rw [show (0 : Nat) + h1 = h1 by omega]
  rw [List.replicate_succ, List.cons_append,
    scanRows_close_step (blankRow (x0 + w)) (firstMatch_blankRow (x0 + w)),
    scanRows_blank_skip (List.replicate g' (blankRow (x0 + w)))
      (blank_rows_all g' (x0 + w)),
    show h1 + 1 + (List.replicate g' (blankRow (x0 + w))).length = h1 + (g' + 1) by
      simp; omega]
  rw [show List.replicate h2 (bandRow x0 w c)
        = List.replicate h2 (bandRow x0 w c) ++ ([] : List (List Color)) from
      (List.append_nil _).symm,
    scanRows_band_then x0 w h2 c hc hh2 hw]
  simp [scanRows]

lemma get_replicate_append_self {α : Type} (n : Nat) (x : α) (l : List α) :
    (List.replicate n x ++ l).get? n = l.get? 0 := by
  rw [List.get?_append_right (by simp)]
  simp

lemma get_replicate_append {α : Type} (n k : Nat) (x : α) (l : List α) :
    (List.replicate n x ++ l).get? (n + k) = l.get? k := by
  rw [List.get?_append_right (by simp)]
  simp

lemma get_bandRow (x0 w : Nat) (c : Color) (hw : 1 ≤ w) :
    (bandRow x0 w c).get? x0 = some c := by
  obtain ⟨w', rfl⟩ : ∃ w', w = w' + 1 := ⟨w - 1, by omega⟩
  rw [bandRow, get_replicate_append_self, List.replicate_succ]
  rfl

lemma rowAt_oneBand (g1 h g2 x0 w : Nat) (c : Color) (hh : 1 ≤ h) :
    rowAt (oneBandFrame g1 h g2 x0 w c) g1 = bandRow x0 w c := by
  obtain ⟨h', rfl⟩ : ∃ h', h = h' + 1 := ⟨h - 1, by omega⟩
  rw [rowAt, oneBandFrame, List.append_assoc,
    show g1 = (List.replicate g1 (blankRow (x0 + w))).length by simp]
  rw [get_replicate_append_self, List.replicate_succ]
  rfl

lemma getpixel_oneBand (g1 h g2 x0 w : Nat) (c : Color) (hh : 1 ≤ h) (hw : 1 ≤ w) :
    getpixel (oneBandFrame g1 h g2 x0 w c) x0 g1 = c := by
  rw [getpixel, rowAt_oneBand g1 h g2 x0 w c hh, get_bandRow x0 w c hw]
  rfl

lemma rowAt_twoBand_first (h1 g h2 x0 w : Nat) (c : Color) (hh1 : 1 ≤ h1) :
    rowAt (twoBandFrame h1 g h2 x0 w c) 0 = bandRow x0 w c := by
  obtain ⟨h1', rfl⟩ : ∃ h1', h1 = h1' + 1 := ⟨h1 - 1, by omega⟩
  rw [twoBandFrame, List.replicate_succ]
  rfl

lemma rowAt_twoBand_second (h1 g h2 x0 w : Nat) (c : Color) (hh2 : 1 ≤ h2) :
    rowAt (twoBandFrame h1 g h2 x0 w c) (h1 + g) = bandRow x0 w c := by
  obtain ⟨h2', rfl⟩ : ∃ h2', h2 = h2' + 1 := ⟨h2 - 1, by omega⟩
  rw [rowAt, twoBandFrame, List.append_assoc, get_replicate_append,
    get_replicate_append_self, List.replicate_succ]
  rfl

lemma getpixel_twoBand_first (h1 g h2 x0 w : Nat) (c : Color) (hh1 : 1 ≤ h1)
    (hw : 1 ≤ w) : getpixel (twoBandFrame h1 g h2 x0 w c) x0 0 = c := by
  rw [getpixel, rowAt_twoBand_first h1 g h2 x0 w c hh1, get_bandRow x0 w c hw]
  rfl

lemma getpixel_twoBand_second (h1 g h2 x0 w : Nat) (c : Color) (hh2 : 1 ≤ h2)
    (hw : 1 ≤ w) : getpixel (twoBandFrame h1 g h2 x0 w c) x0 (h1 + g) = c := by
  rw [getpixel, rowAt_twoBand_second h1 g h2 x0 w c hh2, get_bandRow x0 w c hw]
  rfl

lemma onePass_oneBand (g1 h g2 x0 w : Nat) (c : Color) (l : List Record) (s : String)
    (safe : Point → Bool) (hc : isMessageColor c = true) (hh : 1 ≤ h) (hw : 1 ≤ w)
    (hs : s ≠ "") :
    process_visible_messages safe (oneBandFrame g1 h g2 x0 w c) (fun _ => .text s)
        (.content l)
      = if safe (x0 + 5, g1 + 5) then
          (1, some ⟨x0, g1, x0, g1 + h - 1⟩, .content (l ++ [⟨s, message_type_of c⟩]))
        else
          (0, some ⟨x0, g1, x0, g1 + h - 1⟩, .content l) := by
  have hareas := oneBand_detect g1 h g2 x0 w c hc hh hw
  have hpix := getpixel_oneBand g1 h g2 x0 w c hh hw
  by_cases hsafe : safe (x0 + 5, g1 + 5) = true
  · rw [if_pos hsafe]
    simp [process_visible_messages, hareas, processAreas, hpix, copy_message, hsafe,
      save_to_json, hs]
  · have hsafe' : safe (x0 + 5, g1 + 5) = false := by
      simpa using hsafe
    rw [if_neg hsafe]
    simp [process_visible_messages, hareas, processAreas, hpix, copy_message, hsafe',
      save_to_json]

lemma onePass_twoBand_dedup (x0 w : Nat) (c : Color) (l : List Record) (s : String)
    (hc : isMessageColor c = true) (hw : 1 ≤ w) (hs : s ≠ "") :
    process_visible_messages (fun _ => true) (twoBandFrame 1 1 1 x0 w c)
        (fun _ => .text s) (.content l)
      = (1, some ⟨x0, 2, x0, 2⟩, .content (l ++ [⟨s, message_type_of c⟩])) := by
  have hareas := twoBand_detect 1 1 1 x0 w c hc (by omega) (by omega) (by omega) hw
  have hpix1 : getpixel (twoBandFrame 1 1 1 x0 w c) x0 0 = c :=
    getpixel_twoBand_first 1 1 1 x0 w c (by omega) hw
  have hpix2 : getpixel (twoBandFrame 1 1 1 x0 w c) x0 2 = c :=
    getpixel_twoBand_second 1 1 1 x0 w c (by omega) hw
  simp [process_visible_messages, hareas, processAreas, hpix1, hpix2, copy_message,
    save_to_json, hs]

lemma message_type_of_cases (c : Color) :
    message_type_of c = "my_message" ∨ message_type_of c = "other_message" := by
  rw [message_type_of]
  by_cases h : c = my_message_color
  · rw [if_pos h]; exact Or.inl rfl
  · rw [if_neg h]; exact Or.inr rfl

lemma copy_message_type (area : Area) (color : Color) (safe : Point → Bool)
    (o : ClipboardOutcome)
    (h : (copy_message area color safe o).text ≠ "") :
    (copy_message area color safe o).type = message_type_of color := by
  rw [copy_message.eq_def] at *
  by_cases hsafe : safe (area.min_x + 5, area.min_y + 5) = true
  · rw [if_pos hsafe] at *
    cases o with
    | failure => simp at h
    | noText => rfl
    | text s => rfl
  · rw [if_neg hsafe] at h
    simp at h

lemma processAreas_store_inv (safe : Point → Bool) (frame : Frame)
    (outcome : Nat → ClipboardOutcome) :
    ∀ (areas : List Area) (i : Nat) (processed l : List Record),
      ∃ app : List Record,
        (processAreas safe frame outcome areas i processed (.content l)).1
            = processed ++ app ∧
        (processAreas safe frame outcome areas i processed (.content l)).2
            = .content (l ++ app) ∧
        ∀ m ∈ app, m.text ≠ "" ∧
          (m.type = "my_message" ∨ m.type = "other_message") := by
  intro areas
  induction areas with
  | nil =>
    intro i processed l
    exact ⟨[], by simp [processAreas], by simp [processAreas], by simp⟩
  | cons a rest ih =>
    intro i processed l
    by_cases hcond :
        (copy_message a (getpixel frame a.min_x a.min_y) safe (outcome i)).text ≠ "" ∧
        copy_message a (getpixel frame a.min_x a.min_y) safe (outcome i) ∉ processed
    · obtain ⟨app, h1, h2, h3⟩ := ih (i + 1)
        (processed ++ [copy_message a (getpixel frame a.min_x a.min_y) safe (outcome i)])
        (l ++ [copy_message a (getpixel frame a.min_x a.min_y) safe (outcome i)])
      refine ⟨copy_message a (getpixel frame a.min_x a.min_y) safe (outcome i) :: app,
        ?_, ?_, ?_⟩
      · rw [show processAreas safe frame outcome (a :: rest) i processed (.content l)
              = processAreas safe frame outcome rest (i + 1)
                  (processed ++ [copy_message a (getpixel frame a.min_x a.min_y) safe
                    (outcome i)])
                  (save_to_json (.content l)
                    (copy_message a (getpixel frame a.min_x a.min_y) safe (outcome i)))
            by simp [processAreas, hcond]]
        rw [show save_to_json (FileState.content l)
              (copy_message a (getpixel frame a.min_x a.min_y) safe (outcome i))
              = FileState.content (l ++ [copy_message a (getpixel frame a.min_x a.min_y)
                  safe (outcome i)]) from rfl]
        rw [h1]
        simp
      · rw [show processAreas safe frame outcome (a :: rest) i processed (.content l)
              = processAreas safe frame outcome rest (i + 1)
                  (processed ++ [copy_message a (getpixel frame a.min_x a.min_y) safe
                    (outcome i)])
                  (save_to_json (.content l)
                    (copy_message a (getpixel frame a.min_x a.min_y) safe (outcome i)))
            by simp [processAreas, hcond]]
        rw [show save_to_json (FileState.content l)
              (copy_message a (getpixel frame a.min_x a.min_y) safe (outcome i))
              = FileState.content (l ++ [copy_message a (getpixel frame a.min_x a.min_y)
                  safe (outcome i)]) from rfl]
        rw [h2]
        simp
      · intro m hm
        rcases List.mem_cons.mp hm with hm | hm
        · subst hm
          exact ⟨hcond.1, by
            rw [copy_message_type a (getpixel frame a.min_x a.min_y) safe (outcome i)
              hcond.1]
            exact message_type_of_cases (getpixel frame a.min_x a.min_y)⟩
        · exact h3 m hm
    · obtain ⟨app, h1, h2, h3⟩ := ih (i + 1) processed l
      refine ⟨app, ?_, ?_, h3⟩
      · rw [show processAreas safe frame outcome (a :: rest) i processed (.content l)
              = processAreas safe frame outcome rest (i + 1) processed (.content l)
            by simp [processAreas, hcond]]
        exact h1
      · rw [show processAreas safe frame outcome (a :: rest) i processed (.content l)
              = processAreas safe frame outcome rest (i + 1) processed (.content l)
            by simp [processAreas, hcond]]
        exact h2

lemma idleFold_nil (idle : Nat) : idleFold idle [] = idle := rfl

lemma idleFold_cons (idle c : Nat) (rest : List Nat) :
    idleFold idle (c :: rest) = idleFold (if c = 0 then idle + 1 else 0) rest := by
  rw [idleFold, idleFold, List.foldl_cons]

lemma scrollLoop_char :
    ∀ (stub : List Nat) (idle total : Nat),
      (scrollLoop stub idle total).2
          = total + (stub.take (scrollLoop stub idle total).1).sum ∧
      (∀ m, m < (scrollLoop stub idle total).1 → idleFold idle (stub.take m) < 10) ∧
      ((scrollLoop stub idle total).1 < stub.length →
        10 ≤ idleFold idle (stub.take (scrollLoop stub idle total).1)) := by
  intro stub
  induction stub with
  | nil =>
    intro idle total
    refine ⟨by simp [scrollLoop], ?_, ?_⟩
    · intro m hm
      simp [scrollLoop] at hm
    · intro hlt
      simp at hlt
  | cons c rest ih =>
    intro idle total
    by_cases hidle : idle < 10
    · have hloop : scrollLoop (c :: rest) idle total
          = ((scrollLoop rest (if c = 0 then idle + 1 else 0) (total + c)).1 + 1,
             (scrollLoop rest (if c = 0 then idle + 1 else 0) (total + c)).2) := by
        simp [scrollLoop, hidle]
      obtain ⟨ih1, ih2, ih3⟩ := ih (if c = 0 then idle + 1 else 0) (total + c)
      rw [hloop]
      refine ⟨?_, ?_, ?_⟩
      · rw [ih1, List.take_succ_cons, List.sum_cons]
        omega
      · intro m hm
        cases m with
        | zero => simpa [idleFold_nil] using hidle
        | succ m' =>
          rw [List.take_succ_cons, idleFold_cons]
          exact ih2 m' (by simpa using hm)
      · intro hlen
        rw [List.take_succ_cons, idleFold_cons]
        exact ih3 (by simpa using hlen)
    · have hloop : scrollLoop (c :: rest) idle total = (0, total) := by
        simp [scrollLoop, hidle]
      rw [hloop]
      refine ⟨by simp, ?_, ?_⟩
      · intro m hm
        simp at hm
      · intro _
        simpa [idleFold_nil] using hidle

lemma rowAt_of_drop (frame : Frame) (y : Nat) (row : List Color)
    (rest : List (List Color)) (h : frame.drop y = row :: rest) :
    rowAt frame y = row := by
  have hg : (frame.drop y).get? 0 = frame.get? y := List.get?_drop frame y 0
  rw [rowAt, ← hg, h]
  rfl

lemma drop_succ_of_drop (frame : Frame) (y : Nat) (row : List Color)
    (rest : List (List Color)) (h : frame.drop y = row :: rest) :
    frame.drop (y + 1) = rest := by
  rw [← List.tail_drop, h]
  rfl

lemma getpixel_of_firstMatch (frame : Frame) (y x : Nat) (row : List Color)
    (rest : List (List Color)) (hdrop : frame.drop y = row :: rest)
    (hx : firstMatch row = some x) :
    isMessageColor (getpixel frame x y) = true := by
  rw [getpixel, rowAt_of_drop frame y row rest hdrop]
  exact firstMatch_sound row x hx

lemma scanRows_inv (frame : Frame) :
    ∀ (rows : List (List Color)) (y : Nat) (curr : Option Area) (acc : List Area),
      frame.drop y = rows →
      (∀ a ∈ acc, wfArea frame a) →
      acc.Pairwise (fun p q => p.max_y < q.min_y) →
      (∀ a ∈ acc, a.max_y < y) →
      (∀ a, curr = some a → wfArea frame a ∧ a.max_y < y ∧
        ∀ b ∈ acc, b.max_y < a.min_y) →
      (∀ a ∈ scanRows rows y curr acc, wfArea frame a) ∧
      (scanRows rows y curr acc).Pairwise (fun p q => p.max_y < q.min_y) := by
  intro rows
  induction rows with
  | nil =>
    intro y curr acc hdrop hwf hpw hacy hcurr
    cases curr with
    | none => exact ⟨hwf, hpw⟩
    | some a =>
      obtain ⟨haw, hay, hab⟩ := hcurr a rfl
      rw [show scanRows [] y (some a) acc = acc ++ [a] from rfl]
      constructor
      · intro b hb
        rcases List.mem_append.mp hb with hb | hb
        · exact hwf b hb
        · rw [List.mem_singleton] at hb
          subst hb
          exact haw
      · rw [List.pairwise_append]
        refine ⟨hpw, by simp, fun b hb a' ha' => ?_⟩
        rw [List.mem_singleton] at ha'
        subst ha'
        exact hab b hb
  | cons row rest ih =>
    intro y curr acc hdrop hwf hpw hacy hcurr
    have hrest : frame.drop (y + 1) = rest := drop_succ_of_drop frame y row rest hdrop
    cases hfm : firstMatch row with
    | none =>
      cases curr with
      | none =>
        rw [scanRows_skip_step row hfm]
        exact ih (y + 1) none acc hrest hwf hpw
          (fun a ha => Nat.lt_succ_of_lt (hacy a ha))
          (fun a ha => Option.noConfusion ha)
      | some a =>
        obtain ⟨haw, hay, hab⟩ := hcurr a rfl
        rw [scanRows_close_step row hfm]
        apply ih (y + 1) none (acc ++ [a]) hrest
        · intro b hb
          rcases List.mem_append.mp hb with hb | hb
          · exact hwf b hb
          · rw [List.mem_singleton] at hb
            subst hb
            exact haw
        · rw [List.pairwise_append]
          refine ⟨hpw, by simp, fun b hb a' ha' => ?_⟩
          rw [List.mem_singleton] at ha'
          subst ha'
          exact hab b hb
        · intro b hb
          rcases List.mem_append.mp hb with hb | hb
          · exact Nat.lt_succ_of_lt (hacy b hb)
          · rw [List.mem_singleton] at hb
            subst hb
            exact Nat.lt_succ_of_lt hay
        · intro a' ha'
          exact Option.noConfusion ha'
    | some x =>
      have hanchor : isMessageColor (getpixel frame x y) = true :=
        getpixel_of_firstMatch frame y x row rest hdrop hfm
      cases curr with
      | none =>
        rw [scanRows_open_step row x hfm]
        apply ih (y + 1) (some ⟨x, y, x, y⟩) acc hrest hwf hpw
          (fun a ha => Nat.lt_succ_of_lt (hacy a ha))
        intro a' ha'
        injection ha' with ha'
        subst ha'
        exact ⟨⟨Nat.le_refl x, Nat.le_refl y, hanchor⟩, Nat.lt_succ_self y, hacy⟩
      | some a =>
        obtain ⟨haw, hay, hab⟩ := hcurr a rfl
        by_cases hgap : 5 < y - a.max_y
        · rw [scanRows_split_step row x hfm rest y a acc hgap]
          apply ih (y + 1) (some ⟨x, y, x, y⟩) (acc ++ [a]) hrest
          · intro b hb
            rcases List.mem_append.mp hb with hb | hb
            · exact hwf b hb
            · rw [List.mem_singleton] at hb
              subst hb
              exact haw
          · rw [List.pairwise_append]
            refine ⟨hpw, by simp, fun b hb a' ha' => ?_⟩
            rw [List.mem_singleton] at ha'
            subst ha'
            exact hab b hb
          · intro b hb
            rcases List.mem_append.mp hb with hb | hb
            · exact Nat.lt_succ_of_lt (hacy b hb)
            · rw [List.mem_singleton] at hb
              subst hb
              exact Nat.lt_succ_of_lt hay
          · intro a' ha'
            injection ha' with ha'
            subst ha'
            refine ⟨⟨Nat.le_refl x, Nat.le_refl y, hanchor⟩, Nat.lt_succ_self y, ?_⟩
            intro b hb
            rcases List.mem_append.mp hb with hb | hb
            · exact hacy b hb
            · rw [List.mem_singleton] at hb
              subst hb
              exact hay
        · rw [scanRows_merge_step row x hfm rest y a acc (by omega)]
          apply ih (y + 1) (some ⟨a.min_x, a.min_y, max a.max_x x, y⟩) acc hrest hwf hpw
            (fun b hb => Nat.lt_succ_of_lt (hacy b hb))
          intro a' ha'
          injection ha' with ha'
          subst ha'
          refine ⟨⟨Nat.le_trans haw.1 (Nat.le_max_left a.max_x x),
            Nat.le_of_lt (Nat.lt_of_le_of_lt haw.2.1 hay), haw.2.2⟩,
            Nat.lt_succ_self y, hab⟩

theorem detector_invariants_general (frame : Frame) :
    (∀ a ∈ find_message_areas frame, wfArea frame a) ∧
    (find_message_areas frame).Pairwise (fun p q => p.max_y < q.min_y) := by
  have h := scanRows_inv frame frame 0 none []
    (List.drop_zero frame) (by intro a ha; cases ha) List.Pairwise.nil
    (by intro a ha; cases ha) (fun a ha => Option.noConfusion ha)
  exact h

/-- Claim C1, counterexample to the stated pass count: on the stubbed pass
sequence (pass 1 persists 2 messages, passes 2-12 persist 0) the
`while no_new_message_count < 10` loop executes only 11 passes — the idle
counter reaches 10 at pass 11 and the loop condition fails before a 12th
pass — having persisted 2 records, so "terminates after pass 12" is false. -/
theorem C1_counterexample :
    scrollLoop [2, 0, 0, 0, 0, 0, 0, 0, 0, 0, 0, 0] 0 0 = (11, 2) ∧ (11 : Nat) ≠ 12 := by
  decide

/-- Claim C1 (amended): the loop terminates exactly when the idle-pass
counter reaches 10 — every executed pass starts with the counter (which
increments on a zero-persist pass and resets to 0 on any persisting pass)
below 10, and if the loop stops with stubbed passes remaining the counter
has reached 10; the total persisted equals the sum of the executed passes'
counts. On the stubbed sequence where pass 1 persists 2 and passes 2-12
persist 0, the controller terminates after pass 11 (not 12) having
persisted exactly 2 records. -/
theorem C1_scroll_termination :
    (∀ (stub : List Nat),
      (scrollLoop stub 0 0).2 = (stub.take (scrollLoop stub 0 0).1).sum ∧
      (∀ m, m < (scrollLoop stub 0 0).1 → idleFold 0 (stub.take m) < 10) ∧
      ((scrollLoop stub 0 0).1 < stub.length →
        10 ≤ idleFold 0 (stub.take (scrollLoop stub 0 0).1))) ∧
    scrollLoop [2, 0, 0, 0, 0, 0, 0, 0, 0, 0, 0, 0] 0 0 = (11, 2) := by
  constructor
  · intro stub
    obtain ⟨h1, h2, h3⟩ := scrollLoop_char stub 0 0
    exact ⟨by simpa using h1, h2, h3⟩
  · decide

/-- Witness for C1: instantiates the characterization on concrete stubs,
discharging both conditional parts. -/
theorem C1_witness :
    idleFold 0 ([0, 0, 0].take 2) < 10 ∧
    10 ≤ idleFold 0 ([0, 0, 0, 0, 0, 0, 0, 0, 0, 0, 7].take
      (scrollLoop [0, 0, 0, 0, 0, 0, 0, 0, 0, 0, 7] 0 0).1) := by
  constructor
  · exact (C1_scroll_termination.1 [0, 0, 0]).2.1 2 (by decide)
  · exact (C1_scroll_termination.1 [0, 0, 0, 0, 0, 0, 0, 0, 0, 0, 7]).2.2 (by decide)

/-- Claim C2, counterexample: two single-column bands of the Self color at
rows 0-1 and 4-5, separated by only 2 blank rows (fewer than 5 pixels),
are returned as TWO regions, not merged into one: the blank row at y = 2
closes the open region immediately, so the 5-pixel merge tolerance never
gets to merge across a blank gap. -/
theorem C2_counterexample :
    find_message_areas
        [[my_message_color], [my_message_color], [(0, 0, 0)], [(0, 0, 0)],
         [my_message_color], [my_message_color]]
      = [⟨0, 0, 0, 1⟩, ⟨0, 4, 0, 5⟩] ∧
    (find_message_areas
        [[my_message_color], [my_message_color], [(0, 0, 0)], [(0, 0, 0)],
         [my_message_color], [my_message_color]]).length ≠ 1 := by
  decide

/-- Claim C2 (amended): two contiguous bands of the same role separated
vertically by ANY positive number of blank rows (in particular both fewer
than 5 and 5 or more) yield two distinct regions, because a row with no
matching pixel closes the open region immediately; only bands with no blank
row between them (gap 0) merge into a single region. -/
theorem C2_separation (h1 g h2 x0 w : Nat) (c : Color) (hc : isMessageColor c = true)
    (hh1 : 1 ≤ h1) (hh2 : 1 ≤ h2) (hw : 1 ≤ w) :
    (1 ≤ g → find_message_areas (twoBandFrame h1 g h2 x0 w c)
        = [⟨x0, 0, x0, h1 - 1⟩, ⟨x0, h1 + g, x0, h1 + g + h2 - 1⟩]) ∧
    find_message_areas (twoBandFrame h1 0 h2 x0 w c)
        = [⟨x0, 0, x0, h1 + h2 - 1⟩] := by
  constructor
  · intro hg
    exact twoBand_detect h1 g h2 x0 w c hc hh1 hg hh2 hw
  · have hfr : twoBandFrame h1 0 h2 x0 w c = oneBandFrame 0 (h1 + h2) 0 x0 w c := by
      rw [twoBandFrame, oneBandFrame, List.replicate_add]
      simp
    rw [hfr, oneBand_detect 0 (h1 + h2) 0 x0 w c hc (by omega) hw]
    simp

/-- Witness for C2: both parts of the separation theorem evaluated at
bands of height 2, width 1, gap 2 and gap 0. -/
theorem C2_witness :
    find_message_areas (twoBandFrame 2 2 2 0 1 my_message_color)
      = [⟨0, 0, 0, 1⟩, ⟨0, 4, 0, 5⟩] ∧
    find_message_areas (twoBandFrame 2 0 2 0 1 my_message_color)
      = [⟨0, 0, 0, 3⟩] := by
  have h := C2_separation 2 2 2 0 1 my_message_color (by decide) (by decide) (by decide)
    (by decide)
  exact ⟨by simpa using h.1 (by decide), by simpa using h.2⟩

/-- Claim C3: evaluation of both safety checks. qq.py's `is_click_safe`
(corners `avoid_area[0]` and `avoid_area[3]`) returns false exactly on the
inclusive rectangle, classifies (20,20) unsafe and (5,5) safe for the zone
(10,10)/(50,10)/(10,30)/(50,30), and the fuck_down_test.py variant returns
true whenever no zone is loaded — but on the same zone it also returns true
(safe) at (20,20), contradicting the claim: it reads its bottom bound from
the top-right corner's y and its right bound from the bottom-left corner's
x, degenerating the zone to the single point (10,10). -/
theorem C3_exclusion_zone :
    (∀ (zone : AvoidArea) (pos : Point),
      is_click_safe zone pos = false ↔
        (zone.p0.1 ≤ pos.1 ∧ pos.1 ≤ zone.p3.1 ∧
         zone.p0.2 ≤ pos.2 ∧ pos.2 ≤ zone.p3.2)) ∧
    is_click_safe ⟨(10, 10), (50, 10), (10, 30), (50, 30)⟩ (20, 20) = false ∧
    is_click_safe ⟨(10, 10), (50, 10), (10, 30), (50, 30)⟩ (5, 5) = true ∧
    (∀ pos : Point, fd_is_click_safe none pos = true) ∧
    fd_is_click_safe (some ⟨(10, 10), (50, 10), (10, 30), (50, 30)⟩) (20, 20) = true := by
  refine ⟨?_, by decide, by decide, fun pos => rfl, by decide⟩
  intro zone pos
  by_cases h : zone.p0.1 ≤ pos.1 ∧ pos.1 ≤ zone.p3.1 ∧
      zone.p0.2 ≤ pos.2 ∧ pos.2 ≤ zone.p3.2
  · simp [is_click_safe, h]
  · simp [is_click_safe, h]

/-- Claim C4: if the safety check rejects the click point (x+5, y+5) the
extractor returns the empty-text, empty-type sentinel with no interaction;
an interaction failure or a text-free clipboard also yield empty text (the
model is total, so no exception escapes); and every record the caller
appends to the store during a pass is either a pre-existing record or has
non-empty text — an empty-text result is never persisted. -/
theorem C4_empty_text_policy :
    (∀ (area : Area) (color : Color) (safe : Point → Bool) (o : ClipboardOutcome),
      safe (area.min_x + 5, area.min_y + 5) = false →
        copy_message area color safe o = ⟨"", ""⟩) ∧
    (∀ (area : Area) (color : Color) (safe : Point → Bool),
      copy_message area color safe .failure = ⟨"", ""⟩) ∧
    (∀ (area : Area) (color : Color) (safe : Point → Bool),
      (copy_message area color safe .noText).text = "") ∧
    (∀ (safe : Point → Bool) (frame : Frame) (outcome : Nat → ClipboardOutcome)
        (areas : List Area) (i : Nat) (processed l : List Record),
      ∀ m ∈ storeRecords
          ((processAreas safe frame outcome areas i processed (.content l)).2),
        m ∈ l ∨ m.text ≠ "") := by
  refine ⟨?_, ?_, ?_, ?_⟩
  · intro area color safe o h
    simp [copy_message, h]
  · intro area color safe
    rw [copy_message.eq_def]
    split <;> rfl
  · intro area color safe
    rw [copy_message.eq_def]
    split <;> rfl
  · intro safe frame outcome areas i processed l m hm
    obtain ⟨app, _, h2, h3⟩ := processAreas_store_inv safe frame outcome areas i processed l
    rw [h2] at hm
    rcases List.mem_append.mp (by simpa [storeRecords] using hm) with hm | hm
    · exact Or.inl hm
    · exact Or.inr (h3 m hm).1

/-- Witness for C4: the unsafe short-circuit at a concrete area with an
always-false safety check, and the store property at a concrete one-area
pass. -/
theorem C4_witness :
    copy_message ⟨0, 0, 0, 0⟩ my_message_color (fun _ => false) (.text "hi") = ⟨"", ""⟩ ∧
    ((⟨"hi", "my_message"⟩ : Record) ∈ ([] : List Record) ∨
      (⟨"hi", "my_message"⟩ : Record).text ≠ "") := by
  constructor
  · exact C4_empty_text_policy.1 ⟨0, 0, 0, 0⟩ my_message_color (fun _ => false)
      (.text "hi") rfl
  · exact C4_empty_text_policy.2.2.2 (fun _ => true) [[my_message_color]]
      (fun _ => .text "hi") [⟨0, 0, 0, 0⟩] 0 [] [] ⟨"hi", "my_message"⟩ (by decide)

/-- Claim C5: submitting the same {text, role} pair twice within one scan
pass (two detected regions extracting the same record) persists it exactly
once, while submitting it in two different passes persists it twice — the
`processed_messages` working list is created afresh on every call of
`process_visible_messages`, so no deduplication crosses passes. -/
theorem C5_pass_dedup (s : String) (c : Color) (l : List Record)
    (hs : s ≠ "") (hc : isMessageColor c = true) :
    process_visible_messages (fun _ => true) (twoBandFrame 1 1 1 0 1 c)
        (fun _ => .text s) (.content l)
      = (1, some ⟨0, 2, 0, 2⟩, .content (l ++ [⟨s, message_type_of c⟩])) ∧
    (process_visible_messages (fun _ => true) (oneBandFrame 0 1 0 0 1 c)
        (fun _ => .text s)
        ((process_visible_messages (fun _ => true) (oneBandFrame 0 1 0 0 1 c)
          (fun _ => .text s) (.content l)).2.2)).2.2
      = .content ((l ++ [⟨s, message_type_of c⟩]) ++ [⟨s, message_type_of c⟩]) := by
  constructor
  · exact onePass_twoBand_dedup 0 1 c l s hc (by omega) hs
  · have h1 := onePass_oneBand 0 1 0 0 1 c l s (fun _ => true) hc (by omega) (by omega) hs
    have h2 := onePass_oneBand 0 1 0 0 1 c (l ++ [⟨s, message_type_of c⟩]) s
      (fun _ => true) hc (by omega) (by omega) hs
    rw [if_pos rfl] at h1 h2
    rw [h1]
    show (process_visible_messages (fun _ => true) (oneBandFrame 0 1 0 0 1 c)
        (fun _ => .text s)
        (FileState.content (l ++ [⟨s, message_type_of c⟩]))).2.2
      = FileState.content ((l ++ [⟨s, message_type_of c⟩]) ++ [⟨s, message_type_of c⟩])
    rw [h2]

/-- Witness for C5: the within-pass half evaluated at text "hi" and the
Self color. -/
theorem C5_witness :
    process_visible_messages (fun _ => true) (twoBandFrame 1 1 1 0 1 my_message_color)
        (fun _ => .text "hi") (.content [])
      = (1, some ⟨0, 2, 0, 2⟩, .content [⟨"hi", "my_message"⟩]) := by
  have h := (C5_pass_dedup "hi" my_message_color [] (by decide) (by decide)).1
  simpa [message_type_of] using h

/-- Claim C6: appending one record to a readable store file rewrites it as
the previous array with the new record at the end and prior records
unchanged in order; the round-trip example from the spec; and during a
pass the store only ever grows by appending (the previous array stays a
prefix of the new one). -/
theorem C6_store_roundtrip :
    (∀ (l : List Record) (m : Record),
      save_to_json (.content l) m = .content (l ++ [m])) ∧
    save_to_json (.content [⟨"hi", "my_message"⟩]) ⟨"bye", "other_message"⟩
      = .content [⟨"hi", "my_message"⟩, ⟨"bye", "other_message"⟩] ∧
    (∀ (safe : Point → Bool) (frame : Frame) (outcome : Nat → ClipboardOutcome)
        (areas : List Area) (i : Nat) (processed l : List Record),
      ∃ app : List Record,
        (processAreas safe frame outcome areas i processed (.content l)).2
          = .content (l ++ app)) := by
  refine ⟨fun l m => rfl, by decide, ?_⟩
  intro safe frame outcome areas i processed l
  obtain ⟨app, _, h2, _⟩ := processAreas_store_inv safe frame outcome areas i processed l
  exact ⟨app, h2⟩

/-- Claim C7, counterexample to "bounding box spans that band": a single
one-row band spanning columns 0-2 (pixel (2,0) matches the reference
color) is returned as the region ⟨0,0,0,0⟩ whose right extent is 0, not 2 —
the scan breaks at the first matching pixel of each row, so the region's
horizontal extent never reaches the band's right edge. -/
theorem C7_counterexample :
    find_message_areas [[my_message_color, my_message_color, my_message_color]]
      = [⟨0, 0, 0, 0⟩] ∧
    isMessageColor
      (getpixel [[my_message_color, my_message_color, my_message_color]] 2 0) = true ∧
    (⟨0, 0, 0, 0⟩ : Area).max_x ≠ 2 := by
  decide

/-- Claim C7 (amended): for a frame holding exactly one contiguous band of
a reference color (any height `h ≥ 1`, any width `w ≥ 1`, left edge `x0`),
the detector returns exactly one region whose row range spans the band's
rows exactly and whose horizontal extent is the single column `x0` (the
leftmost match of each row), not the full band width; the extractor tags
the resulting message with the band's role (Self to my_message, Other to
other_message). -/
theorem C7_single_band (g1 h g2 x0 w : Nat) (c : Color) (l : List Record) (s : String)
    (hc : isMessageColor c = true) (hh : 1 ≤ h) (hw : 1 ≤ w) (hs : s ≠ "") :
    find_message_areas (oneBandFrame g1 h g2 x0 w c) = [⟨x0, g1, x0, g1 + h - 1⟩] ∧
    process_visible_messages (fun _ => true) (oneBandFrame g1 h g2 x0 w c)
        (fun _ => .text s) (.content l)
      = (1, some ⟨x0, g1, x0, g1 + h - 1⟩, .content (l ++ [⟨s, message_type_of c⟩])) ∧
    message_type_of my_message_color = "my_message" ∧
    message_type_of other_message_color = "other_message" := by
  refine ⟨oneBand_detect g1 h g2 x0 w c hc hh hw, ?_, by decide, by decide⟩
  have h1 := onePass_oneBand g1 h g2 x0 w c l s (fun _ => true) hc hh hw hs
  rwa [if_pos rfl] at h1

/-- Witness for C7: a height-2, width-2 Other-colored band with margins,
persisted as an other_message record. -/
theorem C7_witness :
    find_message_areas (oneBandFrame 1 2 1 1 2 other_message_color) = [⟨1, 1, 1, 2⟩] ∧
    process_visible_messages (fun _ => true) (oneBandFrame 1 2 1 1 2 other_message_color)
        (fun _ => .text "hi") (.content [])
      = (1, some ⟨1, 1, 1, 2⟩, .content [⟨"hi", "other_message"⟩]) := by
  have h := C7_single_band 1 2 1 1 2 other_message_color [] "hi" (by decide) (by decide)
    (by decide) (by decide)
  exact ⟨by simpa using h.1, by simpa [message_type_of] using h.2.1⟩

/-- Claim C8, counterexample: on `offsetDemoFrame` the first region's
top-left corner is (0,0), whose pixel carries the Self color, while the
point offset by the click margin (+5,+5) carries the Other color; the
persisted record for that region is typed "my_message", i.e. the role
comes from the exact corner pixel, not from the offset point the claim
describes. -/
theorem C8_counterexample :
    find_message_areas offsetDemoFrame = [⟨0, 0, 0, 0⟩, ⟨5, 5, 5, 5⟩] ∧
    getpixel offsetDemoFrame 0 0 = my_message_color ∧
    getpixel offsetDemoFrame (0 + 5) (0 + 5) = other_message_color ∧
    (process_visible_messages (fun _ => true) offsetDemoFrame (fun _ => .text "hi")
        (.content [])).2.2
      = .content [⟨"hi", "my_message"⟩, ⟨"hi", "other_message"⟩] ∧
    message_type_of other_message_color ≠ "my_message" := by
  decide

/-- Claim C8 (amended): the message's role is determined from the frame's
pixel at the region's exact top-left corner (min_x, min_y) — with no
inward offset — mapping the Self color to my_message and the Other color
to other_message, while the fixed +5 offset is applied only to the click
point tested by the safety check: a pass persists the record typed from
pixel (min_x, min_y) when the click point (min_x+5, min_y+5) is safe and
persists nothing when it is unsafe. -/
theorem C8_role_from_topleft (g1 h g2 x0 w : Nat) (c : Color) (l : List Record)
    (s : String) (safe : Point → Bool) (hc : isMessageColor c = true) (hh : 1 ≤ h)
    (hw : 1 ≤ w) (hs : s ≠ "") :
    getpixel (oneBandFrame g1 h g2 x0 w c) x0 g1 = c ∧
    (safe (x0 + 5, g1 + 5) = true →
      process_visible_messages safe (oneBandFrame g1 h g2 x0 w c) (fun _ => .text s)
          (.content l)
        = (1, some ⟨x0, g1, x0, g1 + h - 1⟩,
            .content (l ++ [⟨s,
              message_type_of (getpixel (oneBandFrame g1 h g2 x0 w c) x0 g1)⟩]))) ∧
    (safe (x0 + 5, g1 + 5) = false →
      process_visible_messages safe (oneBandFrame g1 h g2 x0 w c) (fun _ => .text s)
          (.content l)
        = (0, some ⟨x0, g1, x0, g1 + h - 1⟩, .content l)) := by
  have hpix := getpixel_oneBand g1 h g2 x0 w c hh hw
  have h1 := onePass_oneBand g1 h g2 x0 w c l s safe hc hh hw hs
  refine ⟨hpix, ?_, ?_⟩
  · intro hsafe
    rw [if_pos hsafe] at h1
    rw [h1, hpix]
  · intro hsafe
    rw [if_neg (by simp [hsafe])] at h1
    exact h1

/-- Witness for C8: the corner pixel of a concrete band frame, and the
unsafe branch with an always-false safety check. -/
theorem C8_witness :
    getpixel (oneBandFrame 0 1 0 0 1 my_message_color) 0 0 = my_message_color ∧
    process_visible_messages (fun _ => false) (oneBandFrame 0 1 0 0 1 my_message_color)
        (fun _ => .text "hi") (.content [])
      = (0, some ⟨0, 0, 0, 0⟩, .content []) := by
  have h := C8_role_from_topleft 0 1 0 0 1 my_message_color [] "hi" (fun _ => false)
    (by decide) (by decide) (by decide) (by decide)
  exact ⟨h.1, by simpa using h.2.2 rfl⟩

/-- Claim C9: every region returned by the detector is well-formed and
anchored — min_x ≤ max_x, min_y ≤ max_y, and the frame's pixel at
(min_x, min_y) is one of the two reference colors — and the regions appear
in strictly increasing order of starting row with non-overlapping row
ranges (each region's last row precedes the next region's first row). -/
theorem C9_detector_invariants (frame : Frame) :
    (∀ a ∈ find_message_areas frame,
      a.min_x ≤ a.max_x ∧ a.min_y ≤ a.max_y ∧
      isMessageColor (getpixel frame a.min_x a.min_y) = true) ∧
    (find_message_areas frame).Pairwise
      (fun p q => p.min_y < q.min_y ∧ p.max_y < q.min_y) := by
  obtain ⟨hwf, hpw⟩ := detector_invariants_general frame
  refine ⟨hwf, ?_⟩
  refine List.Pairwise.imp_of_mem ?_ hpw
  intro p q hp hq hlt
  exact ⟨Nat.lt_of_le_of_lt (hwf p hp).2.1 hlt, hlt⟩

/-- Witness for C9: the invariants instantiated at the one region of a
one-pixel Self-colored frame. -/
theorem C9_witness :
    (⟨0, 0, 0, 0⟩ : Area).min_x ≤ (⟨0, 0, 0, 0⟩ : Area).max_x ∧
    (⟨0, 0, 0, 0⟩ : Area).min_y ≤ (⟨0, 0, 0, 0⟩ : Area).max_y ∧
    isMessageColor (getpixel [[my_message_color]] (⟨0, 0, 0, 0⟩ : Area).min_x
      (⟨0, 0, 0, 0⟩ : Area).min_y) = true :=
  (C9_detector_invariants [[my_message_color]]).1 ⟨0, 0, 0, 0⟩ (by decide)

/-- Claim C10: every record appended to the store during a scan pass has
non-empty text and a type equal to "my_message" or "other_message"; the
empty-type sentinel of a skipped or failed extraction is never persisted
(any record of the final store is either a pre-existing one or
well-formed). -/
theorem C10_persisted_wellformed (safe : Point → Bool) (frame : Frame)
    (outcome : Nat → ClipboardOutcome) (areas : List Area) (i : Nat)
    (processed l : List Record) :
    ∀ m ∈ storeRecords
        ((processAreas safe frame outcome areas i processed (.content l)).2),
      m ∈ l ∨ (m.text ≠ "" ∧ (m.type = "my_message" ∨ m.type = "other_message")) := by
  intro m hm
  obtain ⟨app, _, h2, h3⟩ := processAreas_store_inv safe frame outcome areas i processed l
  rw [h2] at hm
  rcases List.mem_append.mp (by simpa [storeRecords] using hm) with hm | hm
  · exact Or.inl hm
  · exact Or.inr (h3 m hm)

/-- Witness for C10: the property instantiated at the record persisted by
a concrete one-area pass over a one-pixel Self-colored frame. -/
theorem C10_witness :
    (⟨"hi", "my_message"⟩ : Record) ∈ ([] : List Record) ∨
    ((⟨"hi", "my_message"⟩ : Record).text ≠ "" ∧
      ((⟨"hi", "my_message"⟩ : Record).type = "my_message" ∨
       (⟨"hi", "my_message"⟩ : Record).type = "other_message")) :=
  C10_persisted_wellformed (fun _ => true) [[my_message_color]] (fun _ => .text "hi")
    [⟨0, 0, 0, 0⟩] 0 [] [] ⟨"hi", "my_message"⟩ (by decide)
